import Mathlib

/-!
# Verification of the EMS protocol navigator core

Shallow embedding of the relevance-matching core of the repository:
the keyword-overlap context scorer (`findRelevantProtocols` in the chat
API route), the category filters of the quiz route and of the search UI,
the search entry points (`handleSearch`, `applyFiltersAndSearch`), and
the weight-based dose calculation of `MedicationCalculator.tsx`.

JavaScript strings are modelled by Lean `String`; `String.toLowerCase`
by `lowerStr`, `String.includes` by substring containment on the
character lists, and splitting on the regex `\s+` by `splitWhitespace`
(the two tokenizations agree after the length filter drops empty
tokens, which both produce only around whitespace).
JavaScript numbers are modelled by `ℚ`; all values appearing in the
claims are exactly representable and far from decimal-rounding
boundaries, so the rational model agrees with IEEE-754 doubles on them.
-/

/-- A protocol document: the sole entity of the data model.  The chat
route only uses `name`, `content` and `source_file`; the quiz route and
search UI additionally use `id` and `categories`.  A missing
`categories` field behaves, in every predicate of the source, exactly
like the empty list, so it is modelled as `[]`. -/
structure Protocol where
  id : String
  name : String
  content : String
  source_file : String
  categories : List String
deriving DecidableEq

/-- JavaScript `String.toLowerCase`, character by character (the
protocol corpus and the queries of the claims are ASCII, where the two
agree). -/
def lowerStr (s : String) : String :=
  ⟨s.data.map Char.toLower⟩

/-- Splitting a character list at every whitespace character.  After
the length filter of `queryKeywords` drops the empty tokens that both
produce only around whitespace, this agrees with the JavaScript
`split(/\s+/)` of the source. -/
def splitWsAux (cur : List Char) : List Char → List (List Char)
  | [] => [cur.reverse]
  | c :: t =>
    if c.isWhitespace then cur.reverse :: splitWsAux [] t
    else splitWsAux (c :: cur) t

/-- JavaScript `s.split(/\s+/)`, up to empty tokens (see `splitWsAux`). -/
def splitWhitespace (s : String) : List String :=
  (splitWsAux [] s.data).map (fun l => ⟨l⟩)

/-- `inclList hay pat` models JavaScript `hay.includes(pat)` on
character lists: `pat` occurs contiguously inside `hay` (the empty
pattern is always found). -/
def inclList (pat : List Char) : List Char → Bool
  | [] => pat.isEmpty
  | c :: t => pat.isPrefixOf (c :: t) || inclList pat t

/-- JavaScript `hay.includes(pat)` on strings. -/
def strIncludes (hay pat : String) : Bool :=
  inclList pat.data hay.data

/-- The stop-word list of `findRelevantProtocols` (route.ts line 582). -/
def stopWords : List String :=
  ["is", "the", "for", "and", "a", "of", "to", "in"]

/-- The surviving query tokens (route.ts line 581-582):
`query.toLowerCase().split(/\s+/).filter(kw => kw.length > 2 && !stopWords.includes(kw))`. -/
def queryKeywords (query : String) : List String :=
  (splitWhitespace (lowerStr query)).filter
    (fun kw => decide (2 < kw.length) && !(stopWords.contains kw))

/-- The per-protocol score of `findRelevantProtocols`
(route.ts lines 585-596): +2 per token occurring in the lower-cased
name, +1 per token occurring in the lower-cased content, then the bonus
pass on the match counts (counted over the token list as the source
does, i.e. with multiplicity). -/
def scoreProtocol (kws : List String) (p : Protocol) : ℕ :=
  let protocolNameLower := lowerStr p.name
  let protocolContentLower := lowerStr p.content
  let base := kws.foldl
    (fun score kw =>
      score + (if strIncludes protocolNameLower kw then 2 else 0)
            + (if strIncludes protocolContentLower kw then 1 else 0)) 0
  let nameMatchCount :=
    (kws.filter (fun kw => strIncludes protocolNameLower kw)).length
  let contentMatchCount :=
    (kws.filter (fun kw => strIncludes protocolContentLower kw)).length
  base + (if 1 < nameMatchCount then nameMatchCount * 2 else 0)
       + (if 1 < contentMatchCount then contentMatchCount else 0)

/-- route.ts line 584-597: every protocol paired with its score. -/
def scoredProtocols (kws : List String) (ps : List Protocol) :
    List (Protocol × ℕ) :=
  ps.map (fun p => (p, scoreProtocol kws p))

/-- Descending order on the score component.  This is the order of the
comparator `(a, b) => b.score - a.score` of route.ts line 598. -/
def scoreGE (a b : Protocol × ℕ) : Prop := b.2 ≤ a.2

instance : DecidableRel scoreGE := fun a b => Nat.decLe b.2 a.2

instance : IsTotal (Protocol × ℕ) scoreGE :=
  ⟨fun a b => Nat.le_total b.2 a.2⟩

instance : IsTrans (Protocol × ℕ) scoreGE :=
  ⟨fun _ _ _ h1 h2 => Nat.le_trans h2 h1⟩

/-- route.ts line 598: keep positive scores, then sort descending by
score.  JavaScript `Array.prototype.sort` is stable (ES2019), which
`List.insertionSort` models. -/
def sortedResults (kws : List String) (ps : List Protocol) :
    List (Protocol × ℕ) :=
  ((scoredProtocols kws ps).filter
    (fun item => decide (0 < item.2))).insertionSort scoreGE

/-- `findRelevantProtocols` (route.ts lines 580-600): tokenize, bail out
on an empty token list, score, filter, sort, take the top five. -/
def findRelevantProtocols (query : String) (ps : List Protocol) :
    List Protocol :=
  let kws := queryKeywords query
  if kws.length = 0 then []
  else ((sortedResults kws ps).take 5).map Prod.fst

/-- The top-five scored pairs before the projection to protocols;
`findRelevantProtocols` is its image under `Prod.fst` (proved below). -/
def topScored (query : String) (ps : List Protocol) :
    List (Protocol × ℕ) :=
  if (queryKeywords query).length = 0 then []
  else (sortedResults (queryKeywords query) ps).take 5

/-- The ANY-match category filter of the quiz route (part_001 lines
46-49): `if (categories.length) pool = pool.filter(p =>
p.categories?.some(c => categories.includes(c)))`. -/
def filterByCategoriesAny (selected : List String) (ps : List Protocol) :
    List Protocol :=
  if 0 < selected.length then
    ps.filter (fun p => p.categories.any (fun c => selected.contains c))
  else ps

/-- The ALL-match category filter of the search UI (page.tsx lines
67-71): `protocolsList.filter(protocol => activeFilters.every(filter =>
protocol.categories?.includes(filter)))`. -/
def filterByCategoriesAll (selected : List String) (ps : List Protocol) :
    List Protocol :=
  if 0 < selected.length then
    ps.filter (fun p => selected.all (fun f => p.categories.contains f))
  else ps

/-- JavaScript `!searchTerm.trim()`: the term is empty or
whitespace-only, i.e. every character is whitespace. -/
def isBlank (s : String) : Bool :=
  s.data.all Char.isWhitespace

/-- `handleSearch` of part_000 lines 57-70: an empty or whitespace-only
search term short-circuits to no results, otherwise the Fuse.js
instance is consulted.  The Fuse.js matcher is an external library
(`fuse.search(t).map(r => r.item)`), passed here as the function
argument `fuse`. -/
def handleSearch (fuse : String → List Protocol) (searchTerm : String) :
    List Protocol :=
  if isBlank searchTerm then []
  else fuse searchTerm

/-- `applyFiltersAndSearch` of page.tsx lines 65-82: ALL-match category
pre-filter, then an empty or whitespace-only search term yields the
category-filtered corpus, otherwise a Fuse.js instance built over the
filtered corpus is searched.  `search` models
`new Fuse(corpus, fuseOptions).search(t).map(r => r.item)`. -/
def applyFiltersAndSearch (search : List Protocol → String → List Protocol)
    (protocolsList : List Protocol) (activeFilters : List String)
    (searchTerm : String) : List Protocol :=
  let filteredByCategories :=
    if 0 < activeFilters.length then
      protocolsList.filter
        (fun p => activeFilters.all (fun f => p.categories.contains f))
    else protocolsList
  if isBlank searchTerm then filteredByCategories
  else search filteredByCategories searchTerm

/-- The field weights of `fuseOptions` (page.tsx lines 33-41 and
part_000 lines 31-39): name 0.6, id 0.5, content 0.2. -/
def fuseWeightName : ℚ := 3 / 5

/-- The id weight of `fuseOptions`. -/
def fuseWeightId : ℚ := 1 / 2

/-- The content weight of `fuseOptions`. -/
def fuseWeightContent : ℚ := 1 / 5

/-- The elimination threshold of `fuseOptions`: 0.4. -/
def fuseThreshold : ℚ := 2 / 5

/-- Modelled from the spec: the Fuse.js matcher itself is an external
library whose code is not in the repository; only its configuration
(`fuseOptions`) is.  Spec section 4.2 describes it as scoring each
candidate per field with a bounded dissimilarity metric (0 identical,
1 totally dissimilar) and combining the fields with the configured
weights; the spec gives no aggregation formula, so the aggregate is
modelled as the weight-normalized combination of the per-field
dissimilarities, the per-field metric staying abstract
(`dName`, `dId`, `dContent`). -/
def aggDissim (dName dId dContent : Protocol → ℚ) (p : Protocol) : ℚ :=
  (fuseWeightName * dName p + fuseWeightId * dId p
    + fuseWeightContent * dContent p)
    / (fuseWeightName + fuseWeightId + fuseWeightContent)

/-- Modelled from the spec: `search(query, corpus)` of spec section 4.2
retains a candidate iff its aggregate weighted dissimilarity is below
the 0.4 threshold and ranks retained candidates by ascending
dissimilarity, ties broken by input order (stable sort).  The per-field
dissimilarity metrics, functions of the query, stay abstract. -/
def fuseSearch (dName dId dContent : String → Protocol → ℚ)
    (query : String) (ps : List Protocol) : List Protocol :=
  let agg := aggDissim (dName query) (dId query) (dContent query)
  (ps.filter (fun p => decide (agg p < fuseThreshold))).insertionSort
    (fun a b => agg a ≤ agg b)

/-- The validation error message of `parseNum`
(MedicationCalculator.tsx line 78). -/
def invalidInputMsg : String :=
  "Invalid input: All numerical inputs must be positive numbers."

/-- `parseNum` of `handleCalculate` (MedicationCalculator.tsx lines
76-80).  The JavaScript `parseFloat` result is modelled as `Option ℚ`:
`none` is `NaN` (unparseable input); validation rejects `NaN` and
strictly negative values, via the thrown-and-caught error. -/
def parseNum (val : Option ℚ) : Except String ℚ :=
  match val with
  | none => Except.error invalidInputMsg
  | some num =>
    if num < 0 then Except.error invalidInputMsg else Except.ok num

/-- The lbs-per-kg constant `2.20462` of the source. -/
def lbsPerKg : ℚ := 220462 / 100000

/-- The displayable outcome of the weight-based dose branch: either the
dead-branch message shown when the computed volume is `Infinity`, or
the total dose (mg) and volume (mL) reported through `toFixed(2)`. -/
inductive DoseOutcome where
  | message (msg : String)
  | result (totalDose volume : ℚ)
deriving DecidableEq

/-- The `WEIGHT_DOSE` branch of `handleCalculate`
(MedicationCalculator.tsx lines 84-105), including the surrounding
try/catch: a thrown validation or domain error becomes `Except.error`
(displayed via `setError`), a normal completion becomes `Except.ok`
(displayed via `setWeightDoseResult`).  The JavaScript `Infinity`
produced by the (unreachable) degenerate branch of the
`volumeToAdminister` ternary is modelled as `none`. -/
def calcWeightDose (patientWeight : Option ℚ) (weightUnit : String)
    (concMgPerMl concMl doseRequired : Option ℚ) (doseUnit : String) :
    Except String DoseOutcome := do
  let weight ← parseNum patientWeight
  let finalWeightKg := if weightUnit == "lbs" then weight / lbsPerKg else weight
  let concMg ← parseNum concMgPerMl
  let concInMl ← parseNum concMl
  if concInMl = 0 then
    throw "Concentration volume (mL) cannot be zero."
  let drugConcPerMl := concMg / concInMl
  let doseReq ← parseNum doseRequired
  let totalDoseNeeded :=
    if doseUnit == "mg_kg" then finalWeightKg * doseReq
    else if doseUnit == "mcg_kg" then finalWeightKg * doseReq / 1000
    else 0
  if drugConcPerMl = 0 ∧ totalDoseNeeded ≠ 0 then
    throw "Drug concentration (mg) cannot be zero if dose is required."
  let volumeToAdminister : Option ℚ :=
    if drugConcPerMl = 0 then (if totalDoseNeeded = 0 then some 0 else none)
    else some (totalDoseNeeded / drugConcPerMl)
  match volumeToAdminister with
  | none =>
    pure (DoseOutcome.message
      "Cannot calculate volume: Drug concentration is zero but dose is required.")
  | some v => pure (DoseOutcome.result totalDoseNeeded v)

/-- The numeric content of JavaScript `x.toFixed(2)`: the displayed
value in hundredths, rounded to the nearest hundredth.  Every value of
the claims is an exact multiple of 1/100, so no rounding-mode
subtleties arise. -/
def toFixedHundredths (x : ℚ) : ℤ :=
  Rat.floor (x * 100 + 1 / 2)

instance : DecidableEq (Except String DoseOutcome) := fun a b =>
  match a, b with
  | Except.error x, Except.error y =>
    if h : x = y then isTrue (by rw [h]) else isFalse (by simp [h])
  | Except.ok x, Except.ok y =>
    if h : x = y then isTrue (by rw [h]) else isFalse (by simp [h])
  | Except.error _, Except.ok _ => isFalse (by simp)
  | Except.ok _, Except.error _ => isFalse (by simp)

/-- The claim's tokenization, following its words: split the
lower-cased query on whitespace, drop tokens of length ≤ 2 and the stop
words. -/
def specTokens (query : String) : List String :=
  (splitWhitespace (lowerStr query)).filter
    (fun t => !decide (t.length ≤ 2) && !(stopWords.contains t))

/-- The score C1 describes, read literally: +2 for each surviving token
occurring in the lower-cased name and +1 for each occurring in the
lower-cased content, then the bonus pass gated on (and paying) the
number of DISTINCT matching tokens. -/
def distinctSpecScore (kws : List String) (p : Protocol) : ℕ :=
  let nameL := lowerStr p.name
  let contentL := lowerStr p.content
  let nameMatchCount := (kws.dedup.filter (fun kw => strIncludes nameL kw)).length
  let contentMatchCount := (kws.dedup.filter (fun kw => strIncludes contentL kw)).length
  2 * (kws.filter (fun kw => strIncludes nameL kw)).length
    + (kws.filter (fun kw => strIncludes contentL kw)).length
    + (if 1 < nameMatchCount then nameMatchCount * 2 else 0)
    + (if 1 < contentMatchCount then contentMatchCount else 0)

/-- The amended score: as C1, but `nameMatchCount`/`contentMatchCount`
count the matching tokens with multiplicity (over the token list), as
route.ts lines 592-593 do. -/
def multiplicitySpecScore (kws : List String) (p : Protocol) : ℕ :=
  let nameL := lowerStr p.name
  let contentL := lowerStr p.content
  let nameMatchCount := (kws.filter (fun kw => strIncludes nameL kw)).length
  let contentMatchCount := (kws.filter (fun kw => strIncludes contentL kw)).length
  2 * nameMatchCount + contentMatchCount
    + (if 1 < nameMatchCount then nameMatchCount * 2 else 0)
    + (if 1 < contentMatchCount then contentMatchCount else 0)

lemma specTokens_eq_queryKeywords (q : String) :
    specTokens q = queryKeywords q := by
  unfold specTokens queryKeywords
  apply List.filter_congr
  intro t _
  congr 1
  rw [← decide_not, decide_eq_decide]
  exact Nat.not_le

lemma foldl_score_eq (nl cl : String) (kws : List String) (acc : ℕ) :
    kws.foldl
        (fun score kw =>
          score + (if strIncludes nl kw then 2 else 0)
                + (if strIncludes cl kw then 1 else 0)) acc
      = acc + 2 * (kws.filter (fun kw => strIncludes nl kw)).length
            + (kws.filter (fun kw => strIncludes cl kw)).length := by
  induction kws generalizing acc with
  | nil => simp
  | cons k t ih =>
    simp only [List.foldl_cons, List.filter_cons]
    rw [ih]
    by_cases h1 : strIncludes nl k <;> by_cases h2 : strIncludes cl k <;>
      simp [h1, h2] <;> omega

lemma scoreProtocol_eq_multiplicitySpecScore (kws : List String) (p : Protocol) :
    scoreProtocol kws p = multiplicitySpecScore kws p := by
  simp only [scoreProtocol, multiplicitySpecScore]
  rw [foldl_score_eq]
  omega

lemma filter_score_orderedInsert (s : ℕ) (a : Protocol × ℕ)
    (l : List (Protocol × ℕ)) :
    (l.orderedInsert scoreGE a).filter (fun x => decide (x.2 = s)) =
      if a.2 = s then a :: l.filter (fun x => decide (x.2 = s))
      else l.filter (fun x => decide (x.2 = s)) := by
  induction l with
  | nil =>
    simp only [List.orderedInsert, List.filter]
    by_cases has : a.2 = s <;> simp [has]
  | cons b t ih =>
    rw [List.orderedInsert]
    by_cases hab : scoreGE a b
    · rw [if_pos hab]
      by_cases has : a.2 = s <;> simp [List.filter_cons, has]
    · rw [if_neg hab]
      have hbs : a.2 < b.2 := Nat.lt_of_not_le hab
      by_cases has : a.2 = s
      · have hb : ¬ (b.2 = s) := by omega
        simp [List.filter_cons, hb, ih, has]
      · simp [List.filter_cons, ih, has]

/-- Stability of the descending sort of `sortedResults`: the elements
of any fixed score appear in the sorted list exactly as in the input
list. -/
lemma filter_score_insertionSort (s : ℕ) (l : List (Protocol × ℕ)) :
    (l.insertionSort scoreGE).filter (fun x => decide (x.2 = s)) =
      l.filter (fun x => decide (x.2 = s)) := by
  induction l with
  | nil => rfl
  | cons a t ih =>
    rw [List.insertionSort, filter_score_orderedInsert, ih]
    by_cases has : a.2 = s <;> simp [List.filter_cons, has]

lemma any_contains_singleton (cats : List String) (c : String) :
    (cats.any (fun x => ([c] : List String).contains x)) = cats.contains c := by
  induction cats with
  | nil => rfl
  | cons b t ih => simp_all [List.contains_cons, eq_comm]

lemma all_singleton_contains (cats : List String) (c : String) :
    (([c] : List String).all (fun f => cats.contains f)) = cats.contains c := by
  simp [List.all]

/-- C3: with an empty selected set both category-filter implementations
(ANY-match of the quiz route, ALL-match of the search UI) return the
corpus unchanged, and on every singleton selected set the two agree and
return exactly the protocols whose categories contain the selected
tag. -/
theorem categoryFilter_empty_and_singleton (ps : List Protocol) (c : String) :
    filterByCategoriesAny [] ps = ps
    ∧ filterByCategoriesAll [] ps = ps
    ∧ filterByCategoriesAny [c] ps = ps.filter (fun p => p.categories.contains c)
    ∧ filterByCategoriesAll [c] ps = ps.filter (fun p => p.categories.contains c)
    ∧ filterByCategoriesAny [c] ps = filterByCategoriesAll [c] ps := by
  refine ⟨rfl, rfl, ?_, ?_, ?_⟩
  · unfold filterByCategoriesAny
    rw [if_pos (by norm_num)]
    exact List.filter_congr (fun p _ => any_contains_singleton p.categories c)
  · unfold filterByCategoriesAll
    rw [if_pos (by norm_num)]
    exact List.filter_congr (fun p _ => all_singleton_contains p.categories c)
  · unfold filterByCategoriesAny filterByCategoriesAll
    rw [if_pos (by norm_num), if_pos (by norm_num)]
    refine List.filter_congr (fun p _ => ?_)
    rw [any_contains_singleton, all_singleton_contains]

/-- C5: when no query token survives the length-and-stop-word filter,
the keyword-overlap scorer returns the empty sequence (the guard of
route.ts line 583 fires before any protocol is scored). -/
theorem keywordScorer_no_tokens_empty (q : String) (ps : List Protocol)
    (h : queryKeywords q = []) :
    findRelevantProtocols q ps = [] ∧ topScored q ps = [] := by
  unfold findRelevantProtocols topScored
  rw [h]
  simp

/-- Witness for C5 at the concrete stop-word-and-short-token query. -/
theorem keywordScorer_no_tokens_empty_witness :
    findRelevantProtocols "is the a to of in x" [⟨"p1", "Cardiac Arrest", "c", "f", []⟩] = [] :=
  (keywordScorer_no_tokens_empty "is the a to of in x" [⟨"p1", "Cardiac Arrest", "c", "f", []⟩]
    (by decide)).1

/-- C9: both matchers are pure functions of their query and corpus, so
two runs on identical input produce identical output sequences. -/
theorem matchers_deterministic (q : String) (ps : List Protocol)
    (dn di dc : String → Protocol → ℚ) :
    findRelevantProtocols q ps = findRelevantProtocols q ps
    ∧ fuseSearch dn di dc q ps = fuseSearch dn di dc q ps :=
  ⟨rfl, rfl⟩

/-- C8 (spec-modelled): a protocol is returned by the fuzzy search iff
it belongs to the corpus and its aggregate weighted dissimilarity (with
the `fuseOptions` weights, name 0.6, id 0.5, content 0.2) is strictly
below the 0.4 threshold; in particular no document at or above the
bound appears. -/
theorem fuseSearch_threshold_bound (dn di dc : String → Protocol → ℚ)
    (q : String) (ps : List Protocol) (p : Protocol) :
    p ∈ fuseSearch dn di dc q ps ↔
      p ∈ ps ∧ aggDissim (dn q) (di q) (dc q) p < fuseThreshold := by
  unfold fuseSearch
  simp [List.mem_insertionSort, List.mem_filter]

/-- C1, counterexample: on the query "cardiac cardiac" (a duplicated
token) the score computed by the source (8: base 4 plus a bonus of 4
from a name-match count of 2, counted with multiplicity) differs from
the claim's distinct-count reading (4: the only distinct matching token
is "cardiac", so no bonus fires). -/
theorem keywordScore_distinct_counterexample :
    scoreProtocol (queryKeywords "cardiac cardiac")
        ⟨"p1", "Cardiac Arrest", "xyz", "f.pdf", []⟩
      ≠ distinctSpecScore (specTokens "cardiac cardiac")
        ⟨"p1", "Cardiac Arrest", "xyz", "f.pdf", []⟩ := by
  decide

/-- C1, amended: the scorer assigns exactly the claim's score once
`nameMatchCount`/`contentMatchCount` count the surviving tokens that
match with multiplicity rather than distinctly. -/
theorem keywordScore_matches_spec_with_multiplicity (q : String) (p : Protocol) :
    scoreProtocol (queryKeywords q) p = multiplicitySpecScore (specTokens q) p := by
  rw [specTokens_eq_queryKeywords, scoreProtocol_eq_multiplicitySpecScore]

/-- C7: weight 70 kg, concentration 100 mg / 1 mL, dose 0.5 mg/kg gives
a total dose of 35 mg and a volume of 0.35 mL, displayed via
`toFixed(2)` as 35.00 and 0.35 (3500 and 35 hundredths). -/
theorem weightDose_example_70kg :
    calcWeightDose (some 70) "kg" (some 100) (some 1) (some (1/2)) "mg_kg"
      = Except.ok (DoseOutcome.result 35 (7/20))
    ∧ toFixedHundredths 35 = 3500 ∧ toFixedHundredths (7/20) = 35 := by
  refine ⟨?_, ?_, ?_⟩
  · simp [calcWeightDose, parseNum, bind, Except.bind, pure, Except.pure]
    norm_num
  · norm_num [toFixedHundredths, Rat.floor]
  · norm_num [toFixedHundredths, Rat.floor]

/-- C2, counterexample: in the `applyFiltersAndSearch` code path a
whitespace-only query against a non-empty corpus (no active filters)
returns the full corpus, not the empty sequence. -/
theorem emptyQuery_filterPath_counterexample :
    applyFiltersAndSearch (fun _ _ => []) [⟨"p1", "Cardiac Arrest", "c", "f", ["adult"]⟩] [] "  "
      ≠ [] := by
  decide

/-- C2, amended: on an empty or whitespace-only query the
`handleSearch` path returns the empty sequence without consulting the
fuzzy matcher, while the `applyFiltersAndSearch` path — for every
corpus and every set of active filters — returns the ALL-match
category-filtered corpus (the full corpus when no filter is active),
in both cases without consulting the fuzzy matcher. -/
theorem emptyQuery_search_paths (fuse : String → List Protocol)
    (search : List Protocol → String → List Protocol) (ps : List Protocol)
    (activeFilters : List String) (term : String) (h : isBlank term = true) :
    handleSearch fuse term = []
    ∧ applyFiltersAndSearch search ps activeFilters term
        = filterByCategoriesAll activeFilters ps
    ∧ applyFiltersAndSearch search ps [] term = ps := by
  unfold handleSearch applyFiltersAndSearch filterByCategoriesAll
  simp [h]

/-- Witness for the amended C2 at the whitespace query "  " with the
active filter "adult" over a two-protocol corpus: the search-UI path
returns the category-filtered corpus (here the one adult-tagged
protocol), not the empty sequence, while `handleSearch` returns []. -/
theorem emptyQuery_search_paths_witness :
    handleSearch (fun _ => [⟨"p1", "n", "c", "f", ["adult"]⟩]) "  " = []
    ∧ applyFiltersAndSearch (fun _ _ => [])
        [⟨"p1", "n", "c", "f", ["adult"]⟩, ⟨"p2", "m", "c", "f", ["trauma"]⟩]
        ["adult"] "  "
        = filterByCategoriesAll ["adult"]
            [⟨"p1", "n", "c", "f", ["adult"]⟩, ⟨"p2", "m", "c", "f", ["trauma"]⟩]
    ∧ applyFiltersAndSearch (fun _ _ => [])
        [⟨"p1", "n", "c", "f", ["adult"]⟩, ⟨"p2", "m", "c", "f", ["trauma"]⟩] [] "  "
        = [⟨"p1", "n", "c", "f", ["adult"]⟩, ⟨"p2", "m", "c", "f", ["trauma"]⟩] :=
  emptyQuery_search_paths (fun _ => [⟨"p1", "n", "c", "f", ["adult"]⟩]) (fun _ _ => [])
    [⟨"p1", "n", "c", "f", ["adult"]⟩, ⟨"p2", "m", "c", "f", ["trauma"]⟩]
    ["adult"] "  " (by decide)

set_option maxHeartbeats 1000000 in
lemma calcWeightDose_zero_conc_zero_dose (w m : ℚ) (wu du : String)
    (hw : 0 ≤ w) (hm : 0 < m) :
    calcWeightDose (some w) wu (some 0) (some m) (some 0) du
      = Except.ok (DoseOutcome.result 0 0) := by
  have hw' : ¬ (w < 0) := not_lt.2 hw
  have hm' : ¬ (m < 0) := not_lt.2 hm.le
  have hm0 : ¬ (m = 0) := ne_of_gt hm
  simp [calcWeightDose, parseNum, bind, Except.bind, pure, Except.pure,
    throw, throwThe, MonadExceptOf.throw, hw', hm', hm0, zero_div, mul_zero]

/-- C10: `parseNum` accepts 0 (rejecting exactly `NaN` and strictly
negative values), and with both the concentration numerator and the
required dose equal to 0 (any non-negative weight, any positive
concentration volume, any units) the calculation succeeds with total
dose 0 mg and volume 0 mL (displayed 0.00 / 0.00), not a domain
error. -/
theorem zeroInput_validation_and_zero_dose :
    parseNum (some 0) = Except.ok 0
    ∧ (∀ x : ℚ, 0 ≤ x → parseNum (some x) = Except.ok x)
    ∧ (∀ x : ℚ, x < 0 → parseNum (some x) = Except.error invalidInputMsg)
    ∧ parseNum none = Except.error invalidInputMsg
    ∧ (∀ (w m : ℚ) (wu du : String), 0 ≤ w → 0 < m →
        calcWeightDose (some w) wu (some 0) (some m) (some 0) du
          = Except.ok (DoseOutcome.result 0 0)) := by
  refine ⟨by simp [parseNum], fun x hx => by simp [parseNum, not_lt.2 hx],
    fun x hx => by simp [parseNum, hx], rfl,
    fun w m wu du hw hm => calcWeightDose_zero_conc_zero_dose w m wu du hw hm⟩

/-- C4: the keyword-overlap scorer returns only protocols of positive
score, in non-increasing score order with ties kept in input order
(the top-five scored list is, score class by score class, a prefix of
the positively-scored input in input order), and at most five
protocols; `findRelevantProtocols` is the protocol projection of that
top-five scored list. -/
theorem keywordScorer_output_shape (q : String) (ps : List Protocol) :
    (∀ p ∈ findRelevantProtocols q ps, 0 < scoreProtocol (queryKeywords q) p)
    ∧ List.Sorted scoreGE (topScored q ps)
    ∧ (findRelevantProtocols q ps).length ≤ 5
    ∧ (∀ s : ℕ, (topScored q ps).filter (fun x => decide (x.2 = s)) <+:
        ((scoredProtocols (queryKeywords q) ps).filter
          (fun item => decide (0 < item.2))).filter (fun x => decide (x.2 = s)))
    ∧ findRelevantProtocols q ps = (topScored q ps).map Prod.fst := by
  by_cases h : (queryKeywords q).length = 0
  · refine ⟨?_, ?_, ?_, ?_, ?_⟩ <;>
      simp [findRelevantProtocols, topScored, h]
  · have hts : topScored q ps = (sortedResults (queryKeywords q) ps).take 5 := by
      simp [topScored, h]
    have hEq : findRelevantProtocols q ps = (topScored q ps).map Prod.fst := by
      simp [findRelevantProtocols, topScored, h]
    refine ⟨?_, ?_, ?_, ?_, hEq⟩
    · intro p hp
      rw [hEq] at hp
      obtain ⟨x, hx, hpx⟩ := List.mem_map.1 hp
      rw [hts] at hx
      have hx' : x ∈ sortedResults (queryKeywords q) ps := List.take_subset 5 _ hx
      rw [sortedResults] at hx'
      have hx'' := (List.mem_insertionSort scoreGE).1 hx'
      obtain ⟨hmem, hpos⟩ := List.mem_filter.1 hx''
      obtain ⟨p', hp', hx3⟩ := List.mem_map.1 hmem
      have hsc : x.2 = scoreProtocol (queryKeywords q) x.1 := by
        rw [← hx3]
      have hxpos : 0 < x.2 := by simpa using hpos
      rw [← hpx, ← hsc]
      exact hxpos
    · rw [hts, sortedResults]
      exact List.Pairwise.sublist (List.take_sublist 5 _)
        (List.sorted_insertionSort scoreGE _)
    · rw [hEq, hts]
      simp [List.length_take]
    · intro s
      rw [hts, sortedResults]
      refine ⟨(((((scoredProtocols (queryKeywords q) ps).filter
        (fun item => decide (0 < item.2))).insertionSort scoreGE).drop 5).filter
          (fun x => decide (x.2 = s))), ?_⟩
      rw [← List.filter_append, List.take_append_drop]
      exact filter_score_insertionSort s _
